import Mathlib

/-!
Shallow embedding of the zenwave HTTP-client core (src/lib.rs).

The embedding models the client-side orchestration layer: `Client`,
`RequestBuilder`, and the execution pipeline produced by
`RequestBuilder::into_future`.  External collaborators are modelled as
parameters, exactly as the spec draws the boundary:
* the transport backend (`ClientBackend::call_endpoint`) is a function
  `Request → Except ε Response` carried by the client;
* URI conversion (`TryInto<Uri>`) is a function `α → Option Uri`;
* the cookie grammar (`Cookie::parse` from the cookie crate) is a function
  `String → Option Cookie`.
Rust panics (`unwrap` on a failed conversion or parse) are modelled by the
`Outcome.panicked` constructor, kept distinct from typed errors
(`Outcome.err`).  Header values are modelled as Lean `String`s, which are
valid UTF-8 by construction, so the `String::from_utf8(..).unwrap()` step
of the merge loop cannot fail in the model; `Cookie::parse` failure is the
remaining panic source there.  The output of `Cookie::encoded()` is always
a valid header value, so the `HeaderValue::try_from(..).unwrap()` on the
joined cookie string is modelled as total.
-/

set_option autoImplicit false

namespace Zenwave

/-- URIs are opaque to this layer; parsing lives in the http crate. -/
abbrev Uri := String

/-- The HTTP verbs the client exposes (http::Method). -/
inductive Method where
  | GET
  | POST
  | PUT
  | DELETE
deriving DecidableEq

/-- A cookie (cookie crate): name, value and the attributes that form its
storage identity. -/
structure Cookie where
  name : String
  value : String
  domain : Option String
  path : Option String
deriving DecidableEq

/-- Storage identity of a cookie: (name, domain, path). -/
def Cookie.identity (c : Cookie) : String × Option String × Option String :=
  (c.name, c.domain, c.path)

/-- `cookie.encoded().to_string()`: the name=value wire form of a cookie. -/
def Cookie.encoded (c : Cookie) : String :=
  c.name ++ "=" ++ c.value

/-- The cookie jar, modelled as the list of stored cookies. -/
abbrev CookieJar := List Cookie

/-- `CookieJar::add_original`: insert a cookie as authoritative, replacing
any existing entry with the same (name, domain, path) identity. -/
def CookieJar.add_original (jar : CookieJar) (c : Cookie) : CookieJar :=
  jar.filter (fun d => decide (d.identity ≠ c.identity)) ++ [c]

/-- Header lists are insertion-ordered multimaps. -/
abbrev Headers := List (String × String)

/-- All values stored under a given header name, in order. -/
def Headers.getAll (hs : Headers) (n : String) : List String :=
  (hs.filter (fun h => decide (h.1 = n))).map Prod.snd

/-- An HTTP request (http_kit::Request): method, URI, headers, body. -/
structure Request where
  method : Method
  uri : Uri
  headers : Headers
  body : String
deriving DecidableEq

/-- `Request::new(method, uri)`: fresh request, no headers, empty body. -/
def Request.new (m : Method) (u : Uri) : Request :=
  ⟨m, u, [], ""⟩

/-- `Request::insert_header(name, value)`: set the header, overwriting any
prior value stored under that name. -/
def Request.insertHeader (r : Request) (n v : String) : Request :=
  { r with headers := r.headers.filter (fun h => decide (h.1 ≠ n)) ++ [(n, v)] }

/-- An HTTP response (http_kit::Response): headers and body. -/
structure Response where
  headers : Headers
  body : String
deriving DecidableEq

/-- `header::COOKIE`. -/
def cookieHeader : String := "cookie"

/-- `header::SET_COOKIE`. -/
def setCookieHeader : String := "set-cookie"

/-- The error kinds named by the spec's error-handling design. -/
inductive HttpError where
  | invalidUri
  | cookieParseError
  | headerEncodingError
  | transportError (code : Nat)
deriving DecidableEq

/-- Result of running a piece of Rust code that may return normally,
return a typed error, or panic (abort the process). -/
inductive Outcome (ε α : Type) : Type where
  | ok : α → Outcome ε α
  | err : ε → Outcome ε α
  | panicked : String → Outcome ε α
deriving DecidableEq

/-- The client: cookie jar, cookie-store flag, and a backend.  The backend
(`ClientBackend::call_endpoint`) is abstract: any function from requests to
a transport result. -/
structure Client (ε : Type) where
  cookies : CookieJar
  cookieStore : Bool
  backend : Request → Except ε Response

/-- A request builder: one request plus its owning client. -/
structure RequestBuilder (ε : Type) where
  request : Request
  client : Client ε

/-- Panic message of `uri.try_into().unwrap()` on a failed conversion. -/
def uriPanicMessage : String :=
  "Client.method: uri.try_into().unwrap() panicked on conversion failure"

/-- Panic message of `Cookie::parse(cookie).unwrap()` on a failed parse. -/
def cookieParsePanicMessage : String :=
  "into_future: Cookie.parse(cookie).unwrap() panicked on parse failure"

/-- `Client::method(method, uri)`: convert `uriLike` to a URI with
`try_into().unwrap()` — a panic on failure — and wrap a fresh request in a
builder on success. -/
def Client.method {ε α : Type} (c : Client ε) (m : Method)
    (tryIntoUri : α → Option Uri) (uriLike : α) :
    Outcome HttpError (RequestBuilder ε) :=
  match tryIntoUri uriLike with
  | some u => .ok ⟨Request.new m u, c⟩
  | none => .panicked uriPanicMessage

/-- `Client::set_cookie`: add a cookie to the jar with original semantics. -/
def Client.set_cookie {ε : Type} (c : Client ε) (ck : Cookie) : Client ε :=
  { c with cookies := c.cookies.add_original ck }

/-- `Client::cookie(cookie)` (the spec's `withCookie`): insert into the jar
and hand the client back for chaining. -/
def Client.cookie {ε : Type} (c : Client ε) (ck : Cookie) : Client ε :=
  c.set_cookie ck

/-- `Client::enable_cookie_store` (requires exclusive access: `&mut self`). -/
def Client.enable_cookie_store {ε : Type} (c : Client ε) : Client ε :=
  { c with cookieStore := true }

/-- `Client::disable_cookie_store` (requires exclusive access: `&mut self`). -/
def Client.disable_cookie_store {ε : Type} (c : Client ε) : Client ε :=
  { c with cookieStore := false }

/-- Per-verb shorthand `Client::get`. -/
def Client.get {ε α : Type} (c : Client ε) (t : α → Option Uri) (u : α) :
    Outcome HttpError (RequestBuilder ε) :=
  c.method Method.GET t u

/-- Per-verb shorthand `Client::post`. -/
def Client.post {ε α : Type} (c : Client ε) (t : α → Option Uri) (u : α) :
    Outcome HttpError (RequestBuilder ε) :=
  c.method Method.POST t u

/-- Per-verb shorthand `Client::put`. -/
def Client.put {ε α : Type} (c : Client ε) (t : α → Option Uri) (u : α) :
    Outcome HttpError (RequestBuilder ε) :=
  c.method Method.PUT t u

/-- Per-verb shorthand `Client::delete`. -/
def Client.delete {ε α : Type} (c : Client ε) (t : α → Option Uri) (u : α) :
    Outcome HttpError (RequestBuilder ε) :=
  c.method Method.DELETE t u

/-- `Client::default()`: empty jar, cookie store disabled, default backend
(the backend's default construction is supplied as a parameter, since the
concrete transport is an external collaborator). -/
def defaultClient {ε : Type} (b : Request → Except ε Response) : Client ε :=
  ⟨[], false, b⟩

/-- Free-standing shorthand `get`, routed through `DEFAULT_CLIENT`. -/
def get {ε α : Type} (b : Request → Except ε Response)
    (t : α → Option Uri) (u : α) : Outcome HttpError (RequestBuilder ε) :=
  (defaultClient b).get t u

/-- Free-standing shorthand `post`, routed through `DEFAULT_CLIENT`. -/
def post {ε α : Type} (b : Request → Except ε Response)
    (t : α → Option Uri) (u : α) : Outcome HttpError (RequestBuilder ε) :=
  (defaultClient b).post t u

/-- Free-standing shorthand `put`, routed through `DEFAULT_CLIENT`. -/
def put {ε α : Type} (b : Request → Except ε Response)
    (t : α → Option Uri) (u : α) : Outcome HttpError (RequestBuilder ε) :=
  (defaultClient b).put t u

/-- Free-standing shorthand `delete`, routed through `DEFAULT_CLIENT`. -/
def delete {ε α : Type} (b : Request → Except ε Response)
    (t : α → Option Uri) (u : α) : Outcome HttpError (RequestBuilder ε) :=
  (defaultClient b).delete t u

/-- The outgoing Cookie header value: every stored cookie encoded and
joined with a bare semicolon (`vec.join(";")`). -/
def cookieHeaderValue (jar : CookieJar) : String :=
  String.intercalate ";" (jar.map Cookie.encoded)

/-- Step 2 of the pipeline: if the cookie store is enabled, read the jar and
set the outgoing Cookie header (overwriting any prior value); otherwise
leave the request untouched. -/
def injectCookies {ε : Type} (c : Client ε) (r : Request) : Request :=
  if c.cookieStore then
    r.insertHeader cookieHeader (cookieHeaderValue c.cookies)
  else r

/-- The merge loop body: parse each Set-Cookie header independently with
`Cookie::parse(..).unwrap()` and `add_original` it into the jar; `none`
models the panic of the unwrap on the first unparsable header. -/
def mergeSetCookies (parseCookie : String → Option Cookie) :
    CookieJar → List String → Option CookieJar
  | jar, [] => some jar
  | jar, h :: t =>
    match parseCookie h with
    | some ck => mergeSetCookies parseCookie (jar.add_original ck) t
    | none => none

/-- Lift a backend result into an outcome. -/
def Outcome.ofExcept {ε α : Type} : Except ε α → Outcome ε α
  | .ok a => .ok a
  | .error e => .err e

/-- The observable result of driving one execution pipeline: the request as
handed to the backend, the overall outcome, the jar afterwards, and the two
reads of the cookie-store flag (before and after the backend call). -/
structure PipelineResult (ε : Type) where
  sentRequest : Request
  outcome : Outcome ε Response
  jarAfter : CookieJar
  flagReadBefore : Bool
  flagReadAfter : Bool
deriving DecidableEq

/-- Steps 4–5 of the pipeline: re-read the flag; on a backend error pass it
through unchanged and skip the merge; on success, if the store is enabled,
parse every Set-Cookie header and merge it into the jar. -/
def mergeStep {ε : Type} (parseCookie : String → Option Cookie) (c : Client ε)
    (result : Except ε Response) : Outcome ε Response × CookieJar :=
  if c.cookieStore then
    match result with
    | .error e => (.err e, c.cookies)
    | .ok resp =>
      match mergeSetCookies parseCookie c.cookies
          (resp.headers.getAll setCookieHeader) with
      | some jar2 => (.ok resp, jar2)
      | none => (.panicked cookieParsePanicMessage, c.cookies)
  else (Outcome.ofExcept result, c.cookies)

/-- `RequestBuilder::into_future`: the one-shot execution pipeline.  Both
flag reads dereference the same immutably borrowed client, so both record
`c.cookieStore`. -/
def runPipeline {ε : Type} (parseCookie : String → Option Cookie)
    (c : Client ε) (r : Request) : PipelineResult ε :=
  let req1 := injectCookies c r
  let step := mergeStep parseCookie c (c.backend req1)
  ⟨req1, step.1, step.2, c.cookieStore, c.cookieStore⟩

/-- `Client::send(request)`: route an already-built request through the same
pipeline a builder resolves into. -/
def Client.send {ε : Type} (parseCookie : String → Option Cookie)
    (c : Client ε) (r : Request) : PipelineResult ε :=
  runPipeline parseCookie c r

/-! ## Helper lemmas about the jar merge and headers -/

/-- Folding `add_original` over a list of parsed cookies: the pure content
of the merge loop once every header has parsed. -/
def mergeAll (jar : CookieJar) (cs : List Cookie) : CookieJar :=
  cs.foldl CookieJar.add_original jar

theorem mergeAll_nil (jar : CookieJar) : mergeAll jar [] = jar := rfl

theorem mergeAll_cons (jar : CookieJar) (c : Cookie) (t : List Cookie) :
    mergeAll jar (c :: t) = mergeAll (jar.add_original c) t := rfl

/-- A successful merge loop computes exactly the `add_original` fold of the
parsed cookies. -/
theorem mergeSetCookies_eq_some (pc : String → Option Cookie) (hs : List String) :
    ∀ (jar jar' : CookieJar), mergeSetCookies pc jar hs = some jar' →
      jar' = mergeAll jar (hs.filterMap pc) := by
  induction hs with
  | nil =>
    intro jar jar' h
    simp [mergeSetCookies] at h
    simp [h, mergeAll]
  | cons h t ih =>
    intro jar jar' hm
    rw [mergeSetCookies] at hm
    cases hpc : pc h with
    | none => rw [hpc] at hm; exact absurd hm (by simp)
    | some ck =>
      rw [hpc] at hm
      rw [List.filterMap_cons, hpc, mergeAll_cons]
      exact ih _ _ hm

/-- If every Set-Cookie header parses, the merge loop succeeds. -/
theorem mergeSetCookies_all_some (pc : String → Option Cookie) (hs : List String) :
    ∀ jar : CookieJar, (∀ h ∈ hs, (pc h).isSome) →
      mergeSetCookies pc jar hs = some (mergeAll jar (hs.filterMap pc)) := by
  induction hs with
  | nil => intro jar _; simp [mergeSetCookies, mergeAll]
  | cons h t ih =>
    intro jar hall
    have hh : (pc h).isSome := hall h (List.mem_cons_self h t)
    cases hpc : pc h with
    | none => rw [hpc] at hh; exact absurd hh (by simp)
    | some ck =>
      rw [mergeSetCookies, hpc, List.filterMap_cons, hpc, mergeAll_cons]
      exact ih _ (fun x hx => hall x (List.mem_cons_of_mem h hx))

/-- If some Set-Cookie header fails to parse, the merge loop panics. -/
theorem mergeSetCookies_none_of_bad (pc : String → Option Cookie) (hs : List String) :
    ∀ jar : CookieJar, (∃ h ∈ hs, pc h = none) →
      mergeSetCookies pc jar hs = none := by
  induction hs with
  | nil => intro jar hbad; simp at hbad
  | cons h t ih =>
    intro jar hbad
    rcases hbad with ⟨x, hx, hnone⟩
    cases hpc : pc h with
    | none => rw [mergeSetCookies, hpc]
    | some ck =>
      rw [mergeSetCookies, hpc]
      rcases List.mem_cons.mp hx with rfl | hxt
      · rw [hpc] at hnone; exact absurd hnone (by simp)
      · exact ih _ ⟨x, hxt, hnone⟩

/-- Normal form of the fold: the surviving part of the starting jar (the
entries whose identity is never re-delivered) followed by the fold over the
empty jar. -/
theorem mergeAll_eq_filter_append (cs : List Cookie) : ∀ jar : CookieJar,
    mergeAll jar cs
      = jar.filter (fun d => decide (d.identity ∉ cs.map Cookie.identity))
          ++ mergeAll [] cs := by
  induction cs with
  | nil => intro jar; simp [mergeAll]
  | cons c t ih =>
    intro jar
    have e1 : mergeAll [] (c :: t) = mergeAll ([c] : CookieJar) t := rfl
    rw [mergeAll_cons, ih (jar.add_original c), e1, ih ([c] : CookieJar),
      ← List.append_assoc]
    congr 1
    simp only [CookieJar.add_original, List.filter_append]
    congr 1
    rw [List.filter_filter]
    apply List.filter_congr
    intro d _
    simp only [List.map_cons, List.mem_cons, not_or, decide_not]
    by_cases h1 : d.identity = c.identity <;>
      by_cases h2 : d.identity ∈ t.map Cookie.identity <;> simp [h1, h2]

/-- Everything in the fold either survives from the starting jar or carries
the identity of a delivered cookie. -/
theorem mem_mergeAll_cases (cs : List Cookie) : ∀ (jar : CookieJar) (d : Cookie),
    d ∈ mergeAll jar cs → d ∈ jar ∨ d.identity ∈ cs.map Cookie.identity := by
  induction cs with
  | nil => intro jar d hd; exact Or.inl hd
  | cons c t ih =>
    intro jar d hd
    rw [mergeAll_cons] at hd
    rcases ih _ d hd with h | h
    · simp only [CookieJar.add_original, List.mem_append, List.mem_filter,
        List.mem_singleton] at h
      rcases h with ⟨hj, _⟩ | rfl
      · exact Or.inl hj
      · exact Or.inr (by simp)
    · exact Or.inr (by simp [h])

theorem mem_mergeAll_nil_ids (cs : List Cookie) (d : Cookie)
    (hd : d ∈ mergeAll [] cs) : d.identity ∈ cs.map Cookie.identity := by
  rcases mem_mergeAll_cases cs [] d hd with h | h
  · exact absurd h (List.not_mem_nil d)
  · exact h

/-- Re-merging the same delivered cookies is a no-op: the merge is
idempotent. -/
theorem mergeAll_idem (jar : CookieJar) (cs : List Cookie) :
    mergeAll (mergeAll jar cs) cs = mergeAll jar cs := by
  rw [mergeAll_eq_filter_append cs (mergeAll jar cs), mergeAll_eq_filter_append cs jar,
    List.filter_append, List.filter_filter]
  have h1 : (mergeAll [] cs).filter
      (fun d => decide (d.identity ∉ cs.map Cookie.identity)) = [] := by
    apply List.filter_eq_nil_iff.mpr
    intro d hd
    simp [mem_mergeAll_nil_ids cs d hd]
  have h2 : jar.filter (fun d => decide (d.identity ∉ cs.map Cookie.identity) &&
        decide (d.identity ∉ cs.map Cookie.identity))
      = jar.filter (fun d => decide (d.identity ∉ cs.map Cookie.identity)) := by
    apply List.filter_congr
    intro d _
    exact Bool.and_self _
  rw [h1, h2, List.append_nil]

/-- `add_original` never loses an identity already present in the jar. -/
theorem identity_mem_add_original (jar : CookieJar) (c d : Cookie)
    (hd : d ∈ jar) : ∃ e ∈ jar.add_original c, e.identity = d.identity := by
  by_cases h : d.identity = c.identity
  · exact ⟨c, by simp [CookieJar.add_original], h.symm⟩
  · exact ⟨d, by simp [CookieJar.add_original, List.mem_filter, hd, h], rfl⟩

/-- The fold never loses an identity already present in the jar. -/
theorem identity_mem_mergeAll_of_mem (cs : List Cookie) : ∀ (jar : CookieJar) (i),
    (∃ d ∈ jar, d.identity = i) →
      ∃ d ∈ mergeAll jar cs, d.identity = i := by
  induction cs with
  | nil => intro jar i h; exact h
  | cons c t ih =>
    intro jar i h
    rcases h with ⟨d, hd, hi⟩
    rw [mergeAll_cons]
    rcases identity_mem_add_original jar c d hd with ⟨e, he, hei⟩
    exact ih _ i ⟨e, he, hei.trans hi⟩

/-- Every delivered cookie leaves an entry with its identity in the jar. -/
theorem identity_mem_mergeAll_of_delivered (cs : List Cookie) :
    ∀ (jar : CookieJar) (c : Cookie), c ∈ cs →
      ∃ d ∈ mergeAll jar cs, d.identity = c.identity := by
  induction cs with
  | nil => intro jar c hc; exact absurd hc (List.not_mem_nil c)
  | cons a t ih =>
    intro jar c hc
    rw [mergeAll_cons]
    rcases List.mem_cons.mp hc with rfl | hct
    · apply identity_mem_mergeAll_of_mem
      exact ⟨c, by simp [CookieJar.add_original], rfl⟩
    · exact ih _ c hct

/-- A cookie already stored survives the fold if no delivered cookie shares
its identity. -/
theorem mem_mergeAll_of_fresh_id (cs : List Cookie) : ∀ (jar : CookieJar) (c : Cookie),
    c ∈ jar → (∀ d ∈ cs, d.identity ≠ c.identity) → c ∈ mergeAll jar cs := by
  induction cs with
  | nil => intro jar c hc _; exact hc
  | cons a t ih =>
    intro jar c hc hfresh
    rw [mergeAll_cons]
    apply ih
    · simp only [CookieJar.add_original, List.mem_append, List.mem_filter]
      refine Or.inl ⟨hc, ?_⟩
      simp only [decide_eq_true_eq]
      exact fun h => hfresh a (List.mem_cons_self a t) h.symm
    · exact fun d hd => hfresh d (List.mem_cons_of_mem a hd)

/-- A delivered cookie that is the unique carrier of its identity among the
delivered cookies ends up in the jar itself. -/
theorem mem_mergeAll_of_unique (cs : List Cookie) : ∀ (jar : CookieJar) (c : Cookie),
    c ∈ cs → (∀ d ∈ cs, d.identity = c.identity → d = c) →
      c ∈ mergeAll jar cs := by
  induction cs with
  | nil => intro jar c hc _; exact absurd hc (List.not_mem_nil c)
  | cons a t ih =>
    intro jar c hc huniq
    by_cases hct : c ∈ t
    · rw [mergeAll_cons]
      exact ih _ c hct (fun d hd => huniq d (List.mem_cons_of_mem a hd))
    · rcases List.mem_cons.mp hc with rfl | h
      · rw [mergeAll_cons]
        apply mem_mergeAll_of_fresh_id
        · simp [CookieJar.add_original]
        · intro d hd hid
          exact hct ((huniq d (List.mem_cons_of_mem c hd) hid) ▸ hd)
      · exact absurd h hct

/-- Delivering two cookies with the same identity stores only the later
one, replacing any same-identity entry of the starting jar. -/
theorem mergeAll_pair_same_identity (jar : CookieJar) (c1 c2 : Cookie)
    (h : c1.identity = c2.identity) :
    mergeAll jar [c1, c2]
      = jar.filter (fun d => decide (d.identity ≠ c2.identity)) ++ [c2] := by
  show ((jar.add_original c1).add_original c2) = _
  simp only [CookieJar.add_original, List.filter_append, List.filter_filter]
  have h1 : [c1].filter (fun d => decide (d.identity ≠ c2.identity)) = [] := by
    simp [h]
  have h2 : jar.filter (fun d => decide (d.identity ≠ c2.identity) &&
        decide (d.identity ≠ c1.identity))
      = jar.filter (fun d => decide (d.identity ≠ c2.identity)) := by
    apply List.filter_congr
    intro d _
    rw [h]
    exact Bool.and_self _
  rw [h1, h2, List.append_nil]

/-- The jar holds at most one entry per (name, domain, path) identity. -/
def distinctIds (jar : CookieJar) : Prop :=
  jar.Pairwise (fun a b => a.identity ≠ b.identity)

theorem distinctIds_add_original (jar : CookieJar) (c : Cookie)
    (h : distinctIds jar) : distinctIds (jar.add_original c) := by
  rw [distinctIds, CookieJar.add_original, List.pairwise_append]
  refine ⟨h.filter _, List.pairwise_singleton _ _, ?_⟩
  intro a ha b hb
  rcases List.mem_filter.mp ha with ⟨_, hne⟩
  rcases List.mem_singleton.mp hb with rfl
  simpa using hne

/-- The merge loop preserves one-entry-per-identity. -/
theorem distinctIds_mergeAll (cs : List Cookie) : ∀ jar : CookieJar,
    distinctIds jar → distinctIds (mergeAll jar cs) := by
  induction cs with
  | nil => intro jar h; exact h
  | cons c t ih =>
    intro jar h
    rw [mergeAll_cons]
    exact ih _ (distinctIds_add_original jar c h)

/-- `insert_header` leaves exactly one value under the inserted name. -/
theorem getAll_insertHeader (r : Request) (n v : String) :
    Headers.getAll (r.insertHeader n v).headers n = [v] := by
  simp only [Request.insertHeader, Headers.getAll, List.filter_append,
    List.filter_filter, List.map_append]
  have h1 : r.headers.filter (fun h => decide (h.1 = n) && decide (h.1 ≠ n)) = [] := by
    apply List.filter_eq_nil_iff.mpr
    intro a _
    by_cases h : a.1 = n <;> simp [h]
  rw [h1]
  simp

theorem runPipeline_sentRequest {ε : Type} (pc : String → Option Cookie)
    (c : Client ε) (r : Request) :
    (runPipeline pc c r).sentRequest = injectCookies c r := rfl

theorem runPipeline_flagReads {ε : Type} (pc : String → Option Cookie)
    (c : Client ε) (r : Request) :
    (runPipeline pc c r).flagReadBefore = c.cookieStore ∧
      (runPipeline pc c r).flagReadAfter = c.cookieStore := ⟨rfl, rfl⟩

theorem runPipeline_outcome {ε : Type} (pc : String → Option Cookie)
    (c : Client ε) (r : Request) :
    (runPipeline pc c r).outcome
      = (mergeStep pc c (c.backend (injectCookies c r))).1 := rfl

theorem runPipeline_jarAfter {ε : Type} (pc : String → Option Cookie)
    (c : Client ε) (r : Request) :
    (runPipeline pc c r).jarAfter
      = (mergeStep pc c (c.backend (injectCookies c r))).2 := rfl

/-- With the store enabled, the request handed to the backend carries the
joined jar encoding as its only Cookie header value. -/
theorem sent_cookie_header_of_store {ε : Type} (pc : String → Option Cookie)
    (c : Client ε) (r : Request) (hstore : c.cookieStore = true) :
    Headers.getAll (runPipeline pc c r).sentRequest.headers cookieHeader
      = [String.intercalate ";" (c.cookies.map Cookie.encoded)] := by
  rw [runPipeline_sentRequest]
  unfold injectCookies
  rw [hstore]
  simp only [if_true]
  rw [getAll_insertHeader]
  rfl

/-! ## Concrete instances used by scenarios, counterexamples and witnesses -/

/-- The cookie delivered by the spec's first scenario. -/
def idCookie : Cookie := ⟨"id", "42", none, some "/"⟩

/-- A response carrying the scenario's single Set-Cookie header. -/
def exResponse : Response := ⟨[(setCookieHeader, "id=42; Path=/")], ""⟩

/-- A backend that always succeeds with the scenario response. -/
def exBackendOk : Request → Except HttpError Response :=
  fun _ => Except.ok exResponse

/-- A fresh client: empty jar, cookie store enabled, scenario backend. -/
def exClientFresh : Client HttpError := ⟨[], true, exBackendOk⟩

/-- A cookie grammar that recognises the scenario header. -/
def exParse : String → Option Cookie :=
  fun s => if s = "id=42; Path=/" then some idCookie else none

/-- The scenario request. -/
def exReq : Request := Request.new Method.GET "http://example.com"

/-- A cookie grammar that rejects every header. -/
def badParse : String → Option Cookie := fun _ => none

/-- A backend that always fails with an opaque transport error. -/
def exBackendErr : Request → Except HttpError Response :=
  fun _ => Except.error (HttpError.transportError 7)

/-- A client whose backend fails, store enabled, jar non-empty. -/
def exClientErr : Client HttpError := ⟨[idCookie], true, exBackendErr⟩

/-- A two-cookie jar. -/
def exJar2 : CookieJar := [⟨"a", "1", none, none⟩, ⟨"b", "2", none, none⟩]

/-- A request that already carries a stale Cookie header. -/
def exReqPrior : Request :=
  { Request.new Method.GET "http://example.com" with
    headers := [(cookieHeader, "stale=9")] }

/-- A client with the store disabled and a non-empty jar. -/
def exClientOff : Client HttpError := ⟨[idCookie], false, exBackendOk⟩

/-- First delivery for the replace scenario. -/
def exCk1 : Cookie := ⟨"id", "1", none, none⟩

/-- Second delivery for the replace scenario (same identity). -/
def exCk2 : Cookie := ⟨"id", "2", none, none⟩

/-- A cookie grammar recognising the replace scenario's two headers. -/
def pairParse : String → Option Cookie :=
  fun s =>
    if s = "id=1" then some exCk1
    else if s = "id=2" then some exCk2
    else none

/-- A response delivering id=1 then id=2 for the same identity. -/
def exRespPair : Response :=
  ⟨[(setCookieHeader, "id=1"), (setCookieHeader, "id=2")], ""⟩

/-- A fresh store-enabled client whose backend delivers the pair. -/
def exClientPair : Client HttpError := ⟨[], true, fun _ => Except.ok exRespPair⟩

/-! ## Claims -/

/-- Claim C1, counterexample: on a failing URI conversion, `Client::method`
panics (the `unwrap` aborts) instead of failing with the typed error kind
`InvalidUri`, so the claim as stated is false. -/
theorem method_invalid_uri_cex :
    Client.method exClientFresh Method.GET (fun _ : Unit => (none : Option Uri)) ()
        = Outcome.panicked uriPanicMessage ∧
      Client.method exClientFresh Method.GET (fun _ : Unit => (none : Option Uri)) ()
        ≠ Outcome.err HttpError.invalidUri := by
  refine ⟨rfl, fun h => ?_⟩
  exact Outcome.noConfusion h

/-- Claim C1, amended: for every input whose conversion to a URI fails,
`Client::method` panics (aborts the process) — it does not silently coerce
the input, but neither does it fail with the typed error kind `InvalidUri`;
for every input whose conversion succeeds, it returns a request builder
wrapping a request with the given method and the converted URI. -/
theorem method_conversion_spec {ε α : Type} (c : Client ε) (m : Method)
    (t : α → Option Uri) (u : α) :
    (t u = none → c.method m t u = Outcome.panicked uriPanicMessage) ∧
      (∀ v : Uri, t u = some v →
        ∃ b : RequestBuilder ε, c.method m t u = Outcome.ok b ∧
          b.request = Request.new m v ∧ b.client = c) := by
  constructor
  · intro h
    simp [Client.method, h]
  · intro v hv
    exact ⟨⟨Request.new m v, c⟩, by simp [Client.method, hv], rfl, rfl⟩

/-- Claim C1, witness for the amended theorem at a concrete failing input. -/
theorem method_conversion_spec_witness :
    Client.method exClientFresh Method.GET (fun _ : Unit => (none : Option Uri)) ()
      = Outcome.panicked uriPanicMessage :=
  (method_conversion_spec exClientFresh Method.GET
    (fun _ : Unit => (none : Option Uri)) ()).1 rfl

/-- Claim C2, counterexample: a fresh store-enabled client with an empty jar
does attach a Cookie header on its first GET — the header is present with
the empty string as its value, so "carries no Cookie header at all" is
false. -/
theorem fresh_get_cookie_header_cex :
    Headers.getAll (runPipeline exParse exClientFresh exReq).sentRequest.headers
        cookieHeader = [""] ∧
      Headers.getAll (runPipeline exParse exClientFresh exReq).sentRequest.headers
        cookieHeader ≠ ([] : List String) := by
  constructor
  · rfl
  · intro h
    rw [show Headers.getAll (runPipeline exParse exClientFresh exReq).sentRequest.headers
        cookieHeader = [""] from rfl] at h
    exact List.noConfusion h

/-- Claim C2, amended: a fresh store-enabled client sends its first GET with
a Cookie header whose value is the empty string (the header is present but
encodes no cookies); if the response carries Set-Cookie: id=42; Path=/, the
jar afterwards holds exactly that cookie, and the very next GET from the
same client carries the header Cookie: id=42. -/
theorem cookie_scenario {pc : String → Option Cookie}
    {b : Request → Except HttpError Response} {resp : Response} (r1 r2 : Request)
    (hb : ∀ r : Request, b r = Except.ok resp)
    (hsc : Headers.getAll resp.headers setCookieHeader = ["id=42; Path=/"])
    (hpc : pc "id=42; Path=/" = some idCookie) :
    Headers.getAll (runPipeline pc ⟨[], true, b⟩ r1).sentRequest.headers
        cookieHeader = [""] ∧
      (runPipeline pc ⟨[], true, b⟩ r1).jarAfter = [idCookie] ∧
      Headers.getAll
        (runPipeline pc ⟨(runPipeline pc ⟨[], true, b⟩ r1).jarAfter, true, b⟩
          r2).sentRequest.headers cookieHeader = ["id=42"] := by
  have hjar : (runPipeline pc (⟨[], true, b⟩ : Client HttpError) r1).jarAfter
      = [idCookie] := by
    rw [runPipeline_jarAfter]
    simp only [mergeStep, hb, if_true]
    rw [hsc]
    simp [mergeSetCookies, hpc, CookieJar.add_original]
  refine ⟨?_, hjar, ?_⟩
  · rw [sent_cookie_header_of_store pc _ r1 rfl]
    rfl
  · rw [sent_cookie_header_of_store pc _ r2 rfl, hjar]
    rfl

/-- Claim C2, witness: the amended scenario at the concrete client, backend,
request and cookie grammar. -/
theorem cookie_scenario_witness :
    Headers.getAll (runPipeline exParse ⟨[], true, exBackendOk⟩ exReq).sentRequest.headers
        cookieHeader = [""] ∧
      (runPipeline exParse ⟨[], true, exBackendOk⟩ exReq).jarAfter = [idCookie] ∧
      Headers.getAll
        (runPipeline exParse
          ⟨(runPipeline exParse ⟨[], true, exBackendOk⟩ exReq).jarAfter, true, exBackendOk⟩
          exReq).sentRequest.headers cookieHeader = ["id=42"] :=
  cookie_scenario exReq exReq (fun _ => rfl) rfl rfl

/-- Claim C3: with the cookie store enabled, resolving the pipeline sets the
outgoing Cookie header — overwriting any prior Cookie value the request had
— to exactly the jar's cookies, each encoded as name=value and joined with
a bare semicolon. -/
theorem outgoing_cookie_header_exact {ε : Type} (pc : String → Option Cookie)
    (c : Client ε) (r : Request) (hstore : c.cookieStore = true) :
    Headers.getAll (runPipeline pc c r).sentRequest.headers cookieHeader
      = [String.intercalate ";" (c.cookies.map Cookie.encoded)] :=
  sent_cookie_header_of_store pc c r hstore

/-- Claim C3, witness: a two-cookie jar and a request carrying a stale
Cookie header; the stale value is overwritten by a=1;b=2. -/
theorem outgoing_cookie_header_exact_witness :
    Headers.getAll
        (runPipeline exParse (⟨exJar2, true, exBackendOk⟩ : Client HttpError)
          exReqPrior).sentRequest.headers cookieHeader = ["a=1;b=2"] := by
  rw [outgoing_cookie_header_exact exParse ⟨exJar2, true, exBackendOk⟩ exReqPrior rfl]
  rfl

/-- Claim C4, counterexample: with the store enabled and a successful
backend call, an unparsable Set-Cookie header makes the pipeline panic (the
`unwrap` on `Cookie::parse` aborts) instead of failing with the typed error
kind `CookieParseError`, so the claim as stated is false. -/
theorem setcookie_parse_cex :
    (runPipeline badParse exClientFresh exReq).outcome
        = Outcome.panicked cookieParsePanicMessage ∧
      (runPipeline badParse exClientFresh exReq).outcome
        ≠ Outcome.err HttpError.cookieParseError := by
  refine ⟨rfl, fun h => ?_⟩
  rw [show (runPipeline badParse exClientFresh exReq).outcome
      = Outcome.panicked cookieParsePanicMessage from rfl] at h
  exact Outcome.noConfusion h

/-- Claim C4, amended: with the store enabled and a successful backend call,
the pipeline parses each Set-Cookie header independently; if any of them
fails the cookie grammar the whole operation panics (aborts) rather than
failing with `CookieParseError`, and if all of them parse the operation
succeeds with the response and the merged jar. -/
theorem setcookie_parse_spec {ε : Type} (pc : String → Option Cookie)
    (c : Client ε) (r : Request) (resp : Response)
    (hstore : c.cookieStore = true)
    (hb : c.backend (injectCookies c r) = Except.ok resp) :
    ((∃ h ∈ Headers.getAll resp.headers setCookieHeader, pc h = none) →
        (runPipeline pc c r).outcome = Outcome.panicked cookieParsePanicMessage) ∧
      ((∀ h ∈ Headers.getAll resp.headers setCookieHeader, (pc h).isSome) →
        (runPipeline pc c r).outcome = Outcome.ok resp ∧
          (runPipeline pc c r).jarAfter
            = mergeAll c.cookies
                ((Headers.getAll resp.headers setCookieHeader).filterMap pc)) := by
  constructor
  · intro hbad
    rw [runPipeline_outcome, hb]
    simp only [mergeStep, hstore, if_true]
    rw [mergeSetCookies_none_of_bad pc _ c.cookies hbad]
  · intro hall
    have hm := mergeSetCookies_all_some pc
      (Headers.getAll resp.headers setCookieHeader) c.cookies hall
    rw [runPipeline_outcome, runPipeline_jarAfter, hb]
    simp only [mergeStep, hstore, if_true]
    rw [hm]
    exact ⟨rfl, rfl⟩

/-- Claim C4, witness for the amended theorem: the rejecting grammar makes
the concrete pipeline panic. -/
theorem setcookie_parse_spec_witness :
    (runPipeline badParse exClientFresh exReq).outcome
      = Outcome.panicked cookieParsePanicMessage :=
  (setcookie_parse_spec badParse exClientFresh exReq exResponse rfl rfl).1
    ⟨"id=42; Path=/", by decide, rfl⟩

/-- Claim C5: if the backend fails, the pipeline returns exactly that error
unchanged and the jar keeps the state it had before the backend call. -/
theorem backend_error_passthrough {ε : Type} (pc : String → Option Cookie)
    (c : Client ε) (r : Request) (e : ε)
    (hb : c.backend (injectCookies c r) = Except.error e) :
    (runPipeline pc c r).outcome = Outcome.err e ∧
      (runPipeline pc c r).jarAfter = c.cookies := by
  rw [runPipeline_outcome, runPipeline_jarAfter, hb]
  unfold mergeStep
  cases hc : c.cookieStore <;> simp [Outcome.ofExcept]

/-- Claim C5, witness: a store-enabled client with a non-empty jar whose
backend fails with transport error 7. -/
theorem backend_error_passthrough_witness :
    (runPipeline exParse exClientErr exReq).outcome
        = Outcome.err (HttpError.transportError 7) ∧
      (runPipeline exParse exClientErr exReq).jarAfter = [idCookie] :=
  backend_error_passthrough exParse exClientErr exReq
    (HttpError.transportError 7) rfl

/-- Claim C6: with the cookie store disabled, the pipeline hands the request
to the backend untouched (so no Cookie header is added), leaves the jar
unchanged, mirrors the backend result, and never looks at the response's
Set-Cookie headers (its result does not depend on the cookie grammar). -/
theorem cookie_store_disabled_frame {ε : Type} (pc pc' : String → Option Cookie)
    (c : Client ε) (r : Request) (hstore : c.cookieStore = false) :
    (runPipeline pc c r).sentRequest = r ∧
      (runPipeline pc c r).jarAfter = c.cookies ∧
      (runPipeline pc c r).outcome = Outcome.ofExcept (c.backend r) ∧
      runPipeline pc c r = runPipeline pc' c r := by
  have hreq : injectCookies c r = r := by simp [injectCookies, hstore]
  have hstep : ∀ q : String → Option Cookie,
      mergeStep q c (c.backend r) = (Outcome.ofExcept (c.backend r), c.cookies) := by
    intro q
    simp [mergeStep, hstore]
  refine ⟨?_, ?_, ?_, ?_⟩
  · rw [runPipeline_sentRequest, hreq]
  · rw [runPipeline_jarAfter, hreq, hstep]
  · rw [runPipeline_outcome, hreq, hstep]
  · simp [runPipeline, hreq, hstep]

/-- Claim C6, witness: a disabled-store client with a non-empty jar and two
different cookie grammars. -/
theorem cookie_store_disabled_frame_witness :
    (runPipeline exParse exClientOff exReq).sentRequest = exReq ∧
      (runPipeline exParse exClientOff exReq).jarAfter = [idCookie] ∧
      (runPipeline exParse exClientOff exReq).outcome
        = Outcome.ofExcept (exClientOff.backend exReq) ∧
      runPipeline exParse exClientOff exReq = runPipeline badParse exClientOff exReq :=
  cookie_store_disabled_frame exParse badParse exClientOff exReq rfl

/-- Claim C7: after a successful store-enabled send, the jar is the
`add_original` fold of the delivered cookies: every delivered cookie leaves
an entry with its identity (and is itself present when it is the unique
carrier of its identity among the deliveries), re-merging the same
deliveries changes nothing (idempotence), one-entry-per-identity is
preserved, and delivering two same-identity cookies keeps only the later
one. -/
theorem jar_merge_properties {ε : Type} (pc : String → Option Cookie)
    (c : Client ε) (r : Request) (resp : Response)
    (hstore : c.cookieStore = true)
    (hb : c.backend (injectCookies c r) = Except.ok resp)
    (hall : ∀ h ∈ Headers.getAll resp.headers setCookieHeader, (pc h).isSome) :
    (runPipeline pc c r).jarAfter
        = mergeAll c.cookies
            ((Headers.getAll resp.headers setCookieHeader).filterMap pc) ∧
      (∀ ck ∈ (Headers.getAll resp.headers setCookieHeader).filterMap pc,
        ∃ d ∈ (runPipeline pc c r).jarAfter, d.identity = ck.identity) ∧
      (∀ ck ∈ (Headers.getAll resp.headers setCookieHeader).filterMap pc,
        (∀ d ∈ (Headers.getAll resp.headers setCookieHeader).filterMap pc,
            d.identity = ck.identity → d = ck) →
          ck ∈ (runPipeline pc c r).jarAfter) ∧
      mergeAll (runPipeline pc c r).jarAfter
          ((Headers.getAll resp.headers setCookieHeader).filterMap pc)
        = (runPipeline pc c r).jarAfter ∧
      (distinctIds c.cookies → distinctIds (runPipeline pc c r).jarAfter) ∧
      (∀ c1 c2 : Cookie, c1.identity = c2.identity →
        mergeAll c.cookies [c1, c2]
          = c.cookies.filter (fun d => decide (d.identity ≠ c2.identity)) ++ [c2]) := by
  have hm := mergeSetCookies_all_some pc
    (Headers.getAll resp.headers setCookieHeader) c.cookies hall
  have hjar : (runPipeline pc c r).jarAfter
      = mergeAll c.cookies
          ((Headers.getAll resp.headers setCookieHeader).filterMap pc) := by
    rw [runPipeline_jarAfter, hb]
    simp only [mergeStep, hstore, if_true]
    rw [hm]
  rw [hjar]
  refine ⟨rfl, ?_, ?_, mergeAll_idem _ _, ?_, ?_⟩
  · intro ck hck
    exact identity_mem_mergeAll_of_delivered _ _ ck hck
  · intro ck hck huniq
    exact mem_mergeAll_of_unique _ _ ck hck huniq
  · intro h
    exact distinctIds_mergeAll _ _ h
  · intro c1 c2 h12
    exact mergeAll_pair_same_identity _ c1 c2 h12

/-- Claim C7, witness: delivering id=1 then id=2 for the same identity into
a fresh jar retains only id=2. -/
theorem jar_merge_properties_witness :
    (runPipeline pairParse exClientPair exReq).jarAfter = [exCk2] :=
  ((jar_merge_properties pairParse exClientPair exReq exRespPair rfl rfl
    (by decide)).1).trans (by decide)

/-- Claim C8, counterexample: with the cookie store disabled, a cookie added
via `Client::cookie` does not appear in any Cookie header of the next send —
no Cookie header is attached at all — so the claim's unconditional "present
in the Cookie header of the very next send" is false. -/
theorem with_cookie_disabled_cex :
    Headers.getAll
        (runPipeline exParse
          ((⟨[], false, exBackendOk⟩ : Client HttpError).cookie idCookie)
          exReq).sentRequest.headers cookieHeader = ([] : List String) := rfl

/-- Claim C8, amended: `Client::cookie` inserts the cookie into the jar with
original semantics (replacing any same-identity entry) and returns the same
client otherwise unchanged; when the cookie store is enabled, the cookie's
encoding is one of the semicolon-joined parts of the Cookie header of the
very next send. -/
theorem with_cookie_spec {ε : Type} (pc : String → Option Cookie)
    (c : Client ε) (ck : Cookie) (r : Request) (hstore : c.cookieStore = true) :
    (c.cookie ck).cookies = c.cookies.add_original ck ∧
      (c.cookie ck).cookieStore = c.cookieStore ∧
      (c.cookie ck).backend = c.backend ∧
      ck ∈ (c.cookie ck).cookies ∧
      (∀ d ∈ (c.cookie ck).cookies, d.identity = ck.identity → d = ck) ∧
      Headers.getAll (runPipeline pc (c.cookie ck) r).sentRequest.headers cookieHeader
        = [String.intercalate ";" ((c.cookie ck).cookies.map Cookie.encoded)] ∧
      Cookie.encoded ck ∈ (c.cookie ck).cookies.map Cookie.encoded := by
  refine ⟨rfl, rfl, rfl, ?_, ?_, ?_, ?_⟩
  · simp [Client.cookie, Client.set_cookie, CookieJar.add_original]
  · intro d hd hid
    simp only [Client.cookie, Client.set_cookie, CookieJar.add_original,
      List.mem_append, List.mem_filter, List.mem_singleton] at hd
    rcases hd with ⟨_, hne⟩ | rfl
    · simp only [decide_eq_true_eq] at hne
      exact absurd hid hne
    · rfl
  · exact sent_cookie_header_of_store pc (c.cookie ck) r hstore
  · apply List.mem_map_of_mem
    simp [Client.cookie, Client.set_cookie, CookieJar.add_original]

/-- Claim C8, witness: adding id=42 to a fresh store-enabled client makes
the next send carry Cookie: id=42. -/
theorem with_cookie_spec_witness :
    Headers.getAll
        (runPipeline exParse
          ((⟨[], true, exBackendOk⟩ : Client HttpError).cookie idCookie)
          exReq).sentRequest.headers cookieHeader = ["id=42"] := by
  rw [(with_cookie_spec exParse ⟨[], true, exBackendOk⟩ idCookie exReq rfl).2.2.2.2.2.1]
  rfl

/-- Claim C9: each per-verb shorthand equals `Client::method` at the
corresponding verb; each free-standing shorthand routes through the default
client, whose configuration is the default one: cookie store disabled and
an empty jar. -/
theorem shorthands_and_default_client {ε α : Type}
    (b : Request → Except ε Response) (c : Client ε) (t : α → Option Uri) (u : α) :
    c.get t u = c.method Method.GET t u ∧
      c.post t u = c.method Method.POST t u ∧
      c.put t u = c.method Method.PUT t u ∧
      c.delete t u = c.method Method.DELETE t u ∧
      Zenwave.get b t u = (defaultClient b).get t u ∧
      Zenwave.post b t u = (defaultClient b).post t u ∧
      Zenwave.put b t u = (defaultClient b).put t u ∧
      Zenwave.delete b t u = (defaultClient b).delete t u ∧
      (defaultClient b).cookieStore = false ∧
      (defaultClient b).cookies = ([] : CookieJar) :=
  ⟨rfl, rfl, rfl, rfl, rfl, rfl, rfl, rfl, rfl, rfl⟩

/-- Claim C10: within one pipeline both reads of the cookie-store flag
dereference the same client value, so the value read before the backend
call always equals the value read after it; toggling the flag is only
possible by producing a new client value through the exclusive-access
operations. -/
theorem flag_reads_agree {ε : Type} (pc : String → Option Cookie)
    (c : Client ε) (r : Request) :
    (runPipeline pc c r).flagReadBefore = (runPipeline pc c r).flagReadAfter ∧
      (runPipeline pc c r).flagReadBefore = c.cookieStore ∧
      (runPipeline pc c r).flagReadAfter = c.cookieStore ∧
      (Client.enable_cookie_store c).cookieStore = true ∧
      (Client.disable_cookie_store c).cookieStore = false :=
  ⟨rfl, rfl, rfl, rfl, rfl⟩

end Zenwave
